import Mathlib

/-!
# Verification of codex-validator-mcp core services

Shallow embedding, in Lean 4, of the core services of the
`codex-validator-mcp` repository:

* `src/services/codex.ts` — the Codex CLI wrapper: `parseCodexOutput`,
  `extractListItems`, `isQuotaError`, `getDefaultParsedResult`, and the
  `close`/`error` handlers of `spawnCodex`.
* `src/services/execution-manager.ts` — the dual-path execution manager:
  `execute`, `executeViaOpenAI`, `resetFallbackState`, `initialize`
  (modelled as `managerInit`), and the `getExecutionManager` singleton
  factory.
* `src/services/change-applier.ts` — `assessImpact`,
  `generateConfirmationSummary`, `createConfirmationRequest`.

Strings are modelled as `List Char` (`Str`).  JavaScript regular
expressions used by the source are modelled by a small backtracking
matcher (`reMatch`) over a regex syntax `RE`; the matcher returns the
list of possible remainders in ECMAScript backtracking priority order
(greedy quantifiers try longer matches first, alternatives are tried
left to right, and a quantifier iteration that consumes no input is not
repeated, as in the ECMAScript `RepeatMatcher`).  The matcher is
structurally recursive on a fuel argument; fuel decreases on every
recursive call and the entry points supply `(length + 2) * (size + 2)`
fuel, which exceeds the maximal possible recursion depth (every `star`
re-entry consumes at least one character, and between two consumption
events at most `size` constructors are peeled), so the cutoff branch is
never reached for the supplied fuel.
-/

/-- Strings of the modelled program: JavaScript strings as lists of
characters. -/
abbrev Str := List Char

/-- JavaScript `\s` / `String.prototype.trim` whitespace: space, tab,
line terminators, vertical tab, form feed, NBSP and the Unicode space
separators. -/
def jsWhitespace (c : Char) : Bool :=
  c == ' ' || c == '\t' || c == '\n' || c == '\x0b' || c == '\x0c' || c == '\r' ||
  c.toNat == 0xA0 || c.toNat == 0x1680 ||
  (0x2000 ≤ c.toNat && c.toNat ≤ 0x200A) ||
  c.toNat == 0x2028 || c.toNat == 0x2029 || c.toNat == 0x202F ||
  c.toNat == 0x205F || c.toNat == 0x3000 || c.toNat == 0xFEFF

/-- Lower-casing of a whole string (`String.prototype.toLowerCase`,
restricted to simple case mapping, which agrees on all text the source
manipulates). -/
def toLowerStr (s : Str) : Str := s.map Char.toLower

/-- `String.prototype.includes`: `nee` occurs as a contiguous substring
of `hay`. -/
def containsSub (hay nee : Str) : Bool :=
  nee.isPrefixOf hay ||
    match hay with
    | [] => false
    | _ :: t => containsSub t nee

/-- `String.prototype.endsWith`. -/
def endsWith (s pat : Str) : Bool := pat.isSuffixOf s

/-- `parseInt(digits, 10)` on a non-empty string of decimal digits. -/
def natOfDigits (ds : Str) : Nat :=
  ds.foldl (fun n c => n * 10 + (c.toNat - ('0').toNat)) 0

/-- Decimal rendering of a natural number (template literal `${n}`). -/
def natRepr (n : Nat) : Str := (Nat.repr n).data

/-- `String.prototype.split(sep)` for a one-character separator. -/
def splitOnChar (sep : Char) : Str → List Str
  | [] => [[]]
  | c :: t =>
    let r := splitOnChar sep t
    if c == sep then [] :: r
    else
      match r with
      | h :: rs => (c :: h) :: rs
      | [] => [[c]]

/-- `String.prototype.trim`. -/
def trimStr (s : Str) : Str :=
  ((s.dropWhile jsWhitespace).reverse.dropWhile jsWhitespace).reverse

/-!
## Regex syntax and backtracking matcher
-/

/-- Regular expression syntax: empty word, single-character class,
concatenation, ordered alternation and greedy Kleene star. -/
inductive RE where
  | eps : RE
  | cls : (Char → Bool) → RE
  | seq : RE → RE → RE
  | alt : RE → RE → RE
  | star : RE → RE

/-- Number of constructors of a regex (used to size the fuel of the
matcher). -/
def reSize : RE → Nat
  | RE.eps => 1
  | RE.cls _ => 1
  | RE.seq a b => 1 + reSize a + reSize b
  | RE.alt a b => 1 + reSize a + reSize b
  | RE.star r => 1 + reSize r

/-- Case-sensitive literal character. -/
def RE.lit (c : Char) : RE := RE.cls (fun d => d == c)

/-- Case-insensitive literal character (the `i` flag of the source
regexes). -/
def RE.ilit (c : Char) : RE := RE.cls (fun d => d.toLower == c.toLower)

/-- Case-insensitive literal word. -/
def RE.ciword (s : String) : RE :=
  s.data.foldr (fun c acc => RE.seq (RE.ilit c) acc) RE.eps

/-- Greedy `?` (try the body first, then the empty alternative). -/
def RE.opt (r : RE) : RE := RE.alt r RE.eps

/-- Greedy `+`. -/
def RE.plus (r : RE) : RE := RE.seq r (RE.star r)

/-- Backtracking matcher.  `reMatch fuel re s` returns the list of
remainders of `s` after a match of `re` against a prefix of `s`, in
ECMAScript backtracking priority order (first element = the remainder
the JS engine would commit to, given that the continuation succeeds
unconditionally).  A `star` iteration that consumes nothing is not
repeated, exactly as in the ECMAScript `RepeatMatcher`. -/
def reMatch : Nat → RE → Str → List Str
  | 0, _, _ => []
  | _ + 1, RE.eps, s => [s]
  | _ + 1, RE.cls _, [] => []
  | _ + 1, RE.cls p, c :: t => if p c then [t] else []
  | f + 1, RE.seq a b, s => (reMatch f a s).flatMap (fun t => reMatch f b t)
  | f + 1, RE.alt a b, s => reMatch f a s ++ reMatch f b s
  | f + 1, RE.star r, s =>
      ((reMatch f r s).filter (fun t => t.length < s.length)).flatMap
        (fun t => reMatch f (RE.star r) t) ++ [s]

/-- Fuel supplied to the matcher: strictly larger than the depth of any
recursion path of `reMatch` on `re` and `s`. -/
def reFuel (re : RE) (s : Str) : Nat := (s.length + 2) * (reSize re + 2)

/-- Attempt a match of `pre` followed by a final capturing group `cap`
at the start of `s`; on success return the text consumed by the
capturing group.  Remainders of `pre` are tried in backtracking
priority order; for each, the first match of `cap` is taken — this is
the ECMAScript order of discovery of the first overall success, since
in every source regex modelled here nothing follows the capturing
group. -/
def reCaptureAt (pre cap : RE) (s : Str) : Option Str :=
  (reMatch (reFuel pre s) pre s).findSome? fun r1 =>
    (reMatch (reFuel cap r1) cap r1).head?.map fun r2 =>
      r1.take (r1.length - r2.length)

/-- `String.prototype.match` without the `g` flag: leftmost match wins;
returns the text of the final capturing group.  Scans start positions
left to right. -/
def reSearch (pre cap : RE) (s : Str) : Option Str :=
  match reCaptureAt pre cap s with
  | some c => some c
  | none =>
    match s with
    | [] => none
    | _ :: t => reSearch pre cap t

/-!
## Data model of `src/services/codex.ts`
-/

/-- `'suggest' | 'apply'` (`CodexResult.mode`). -/
inductive Mode where
  | suggest : Mode
  | apply : Mode
deriving DecidableEq

/-- `'codex_cli' | 'openai_api'` (`CodexResult.executionPath`). -/
inductive ExecPath where
  | codex_cli : ExecPath
  | openai_api : ExecPath
deriving DecidableEq

/-- `'low' | 'medium' | 'high'` (estimated complexity). -/
inductive Complexity where
  | low : Complexity
  | medium : Complexity
  | high : Complexity
deriving DecidableEq

/-- `'info' | 'warning' | 'error'` (`CodexSuggestion.severity`). -/
inductive Severity where
  | info : Severity
  | warning : Severity
  | error : Severity
deriving DecidableEq

/-- `CodexSuggestion.type`. -/
inductive SuggestionType where
  | code_change : SuggestionType
  | dependency : SuggestionType
  | architecture : SuggestionType
  | security : SuggestionType
  | performance : SuggestionType
  | other : SuggestionType
deriving DecidableEq

/-- `CodexSuggestion` (codex.ts, interface at lines 34-40). -/
structure CodexSuggestion where
  type : SuggestionType
  file : Option Str
  description : Str
  suggestion : Str
  severity : Severity
deriving DecidableEq

/-- `CodexFeasibility` (codex.ts, lines 42-47). -/
structure CodexFeasibility where
  score : Nat
  blockers : List Str
  risks : List Str
  dependencies_missing : List Str
deriving DecidableEq

/-- `CodexCodeReview` (codex.ts, lines 49-53). -/
structure CodexCodeReview where
  suggestions : List CodexSuggestion
  best_practice_violations : List Str
  improvements : List Str
deriving DecidableEq

/-- `CodexImplementationAnalysis` (codex.ts, lines 55-59). -/
structure CodexImplementationAnalysis where
  completeness : Nat
  gaps : List Str
  estimated_complexity : Complexity
deriving DecidableEq

/-- The record returned by `parseCodexOutput` / `getDefaultParsedResult`.  -/
structure ParsedOutput where
  feasibility : CodexFeasibility
  codeReview : CodexCodeReview
  implementationAnalysis : CodexImplementationAnalysis
  changesApplied : List Str
deriving DecidableEq

/-- `CodexResult` (codex.ts, lines 61-73), with the parsed sub-records
inlined as in the source interface. -/
structure CodexResult where
  success : Bool
  mode : Mode
  executionPath : ExecPath
  rawOutput : Str
  rawError : Str
  feasibility : CodexFeasibility
  codeReview : CodexCodeReview
  implementationAnalysis : CodexImplementationAnalysis
  changesApplied : List Str
  error : Option Str
  quotaExhausted : Bool
deriving DecidableEq

/-!
## The structured extraction engine (`parseCodexOutput`)

Each section of `parseCodexOutput` is a `string.match` against a fixed
regex; the regexes are transcribed constructor for constructor.
-/

/-- `[:\s]` — colon or whitespace. -/
def colonOrSpace (c : Char) : Bool := c == ':' || jsWhitespace c

/-- `[-*\d.]` — the bullet characters of a list line. -/
def bulletChar (c : Char) : Bool := c == '-' || c == '*' || c == '.' || c.isDigit

/-- `[^\n]`. -/
def nonNewline (c : Char) : Bool := !(c == '\n')

/-- The captured list block `((?:[-*\d.]\s*[^\n]+\n?)+)` shared by all
list sections of `parseCodexOutput`. -/
def listBlockRe : RE :=
  RE.plus (RE.seq (RE.cls bulletChar)
    (RE.seq (RE.star (RE.cls jsWhitespace))
      (RE.seq (RE.plus (RE.cls nonNewline)) (RE.opt (RE.lit '\n')))))

/-- `keyword[:\s]*\n` — the prefix (before the capturing group) of every
list-section regex. -/
def listSectionPre (keyword : RE) : RE :=
  RE.seq keyword (RE.seq (RE.star (RE.cls colonOrSpace)) (RE.lit '\n'))

/-- `blockers?` -/
def blockersKw : RE := RE.seq (RE.ciword "blocker") (RE.opt (RE.ilit 's'))

/-- `risks?` -/
def risksKw : RE := RE.seq (RE.ciword "risk") (RE.opt (RE.ilit 's'))

/-- `(?:missing\s+)?dependenc(?:y|ies)` -/
def depsKw : RE :=
  RE.seq (RE.opt (RE.seq (RE.ciword "missing") (RE.plus (RE.cls jsWhitespace))))
    (RE.seq (RE.ciword "dependenc") (RE.alt (RE.ilit 'y') (RE.ciword "ies")))

/-- `gaps?` -/
def gapsKw : RE := RE.seq (RE.ciword "gap") (RE.opt (RE.ilit 's'))

/-- `improvements?` -/
def improvementsKw : RE := RE.seq (RE.ciword "improvement") (RE.opt (RE.ilit 's'))

/-- `(?:best\s+practice\s+)?violations?` -/
def violationsKw : RE :=
  RE.seq (RE.opt (RE.seq (RE.ciword "best")
      (RE.seq (RE.plus (RE.cls jsWhitespace))
        (RE.seq (RE.ciword "practice") (RE.plus (RE.cls jsWhitespace))))))
    (RE.seq (RE.ciword "violation") (RE.opt (RE.ilit 's')))

/-- `suggestions?` -/
def suggestionsKw : RE := RE.seq (RE.ciword "suggestion") (RE.opt (RE.ilit 's'))

/-- `(?:changes?\s+applied|applied\s+changes?)` -/
def changesAppliedKw : RE :=
  RE.alt
    (RE.seq (RE.ciword "change") (RE.seq (RE.opt (RE.ilit 's'))
      (RE.seq (RE.plus (RE.cls jsWhitespace)) (RE.ciword "applied"))))
    (RE.seq (RE.ciword "applied") (RE.seq (RE.plus (RE.cls jsWhitespace))
      (RE.seq (RE.ciword "change") (RE.opt (RE.ilit 's')))))

/-- Prefix of `/feasibility[:\s]*(\d+)/i`. -/
def feasibilityPre : RE := RE.seq (RE.ciword "feasibility") (RE.star (RE.cls colonOrSpace))

/-- Prefix of `/completeness[:\s]*(\d+)/i`. -/
def completenessPre : RE := RE.seq (RE.ciword "completeness") (RE.star (RE.cls colonOrSpace))

/-- The captured `(\d+)` of the two score regexes. -/
def digitsCap : RE := RE.plus (RE.cls Char.isDigit)

/-- Prefix of `/complexity[:\s]*(low|medium|high)/i`. -/
def complexityPre : RE := RE.seq (RE.ciword "complexity") (RE.star (RE.cls colonOrSpace))

/-- The captured `(low|medium|high)`. -/
def complexityCap : RE :=
  RE.alt (RE.ciword "low") (RE.alt (RE.ciword "medium") (RE.ciword "high"))

/-- `complexityMatch[1].toLowerCase() as 'low' | 'medium' | 'high'`: the
capture is produced by the alternation `low|medium|high`, so after
lower-casing it is exactly one of the three words. -/
def complexityOfCapture (c : Str) : Complexity :=
  let l := toLowerStr c
  if l = ("low").data then Complexity.low
  else if l = ("medium").data then Complexity.medium
  else Complexity.high

/-- `extractListItems` (codex.ts, lines 246-251): split the captured
block on newlines, strip one leading run of bullet characters plus
whitespace (`line.replace(/^[-*\d.]+\s*/, '')`), trim, and drop empty
results. -/
def extractListItems (text : Str) : List Str :=
  ((splitOnChar '\n' text).map fun line =>
    trimStr (match line with
      | c :: _ => if bulletChar c then (line.dropWhile bulletChar).dropWhile jsWhitespace
                  else line
      | [] => line)).filter fun line => line.length > 0

/-- Helper: run a list-section regex and extract its items; a missing
section leaves the field at its default `[]`. -/
def listSection (keyword : RE) (output : Str) : List Str :=
  match reSearch (listSectionPre keyword) listBlockRe output with
  | some block => extractListItems block
  | none => []

/-- `parseCodexOutput` (codex.ts, lines 142-241).  The initial `result`
object fixes the defaults — score `70`, completeness `70`, complexity
`'medium'`, every list empty — and each section overwrites its field
only when its regex matches. -/
def parseCodexOutput (output : Str) : ParsedOutput :=
  let score : Nat :=
    match reSearch feasibilityPre digitsCap output with
    | some d => min 100 (max 0 (natOfDigits d))
    | none => 70
  let completeness : Nat :=
    match reSearch completenessPre digitsCap output with
    | some d => min 100 (max 0 (natOfDigits d))
    | none => 70
  let complexity : Complexity :=
    match reSearch complexityPre complexityCap output with
    | some c => complexityOfCapture c
    | none => Complexity.medium
  let suggestions : List CodexSuggestion :=
    (listSection suggestionsKw output).map fun item =>
      { type := SuggestionType.other, file := none, description := item,
        suggestion := item, severity := Severity.info }
  { feasibility :=
      { score := score,
        blockers := listSection blockersKw output,
        risks := listSection risksKw output,
        dependencies_missing := listSection depsKw output },
    codeReview :=
      { suggestions := suggestions,
        best_practice_violations := listSection violationsKw output,
        improvements := listSection improvementsKw output },
    implementationAnalysis :=
      { completeness := completeness,
        gaps := listSection gapsKw output,
        estimated_complexity := complexity },
    changesApplied := listSection changesAppliedKw output }

/-!
## Failure classification and degraded records (`codex.ts`)
-/

/-- The fixed quota/rate-limit phrase list of `isQuotaError`
(codex.ts, lines 434-445). -/
def quotaPatterns : List Str :=
  [("rate limit").data, ("rate_limit").data, ("quota exceeded").data,
   ("quota_exceeded").data, ("too many requests").data, ("insufficient_quota").data,
   ("exceeded your current quota").data, ("rate limit reached").data,
   ("billing").data, ("429").data]

/-- `isQuotaError` (codex.ts, lines 433-449): lower-case the text and
test each fixed phrase for substring containment. -/
def isQuotaError (text : Str) : Bool :=
  quotaPatterns.any fun pat => containsSub (toLowerStr text) pat

/-- `getDefaultParsedResult` (codex.ts, lines 454-479; the identical
copy in execution-manager.ts, lines 310-330): the canned degraded
record — scores 50/50, one risk `"Unable to complete analysis"`, one
gap `"Analysis incomplete"`, complexity `'medium'`, all other lists
empty. -/
def getDefaultParsedResult : ParsedOutput :=
  { feasibility :=
      { score := 50, blockers := [],
        risks := [("Unable to complete analysis").data],
        dependencies_missing := [] },
    codeReview :=
      { suggestions := [], best_practice_violations := [], improvements := [] },
    implementationAnalysis :=
      { completeness := 50, gaps := [("Analysis incomplete").data],
        estimated_complexity := Complexity.medium },
    changesApplied := [] }

/-- JavaScript `stdout || stderr` (empty strings are falsy). -/
def jsOrStr (a b : Str) : Str := if a.isEmpty then b else a

/-- Decimal rendering of the `close` event's exit code
(`number | null`): template literal `${code}`. -/
def exitCodeRepr (code : Option Int) : Str :=
  match code with
  | some n => (toString n).data
  | none => ("null").data

/-- The `child.on('close')` handler of `spawnCodex` (codex.ts, lines
345-395), as a function of the state the callback has captured when the
process closes: the mode, the configured timeout, whether the timeout
fired, the accumulated `stdout`/`stderr`, and the exit code.

Branch order as in the source: (1) a fired timeout resolves the canned
degraded record; (2) a quota match on `stderr` or `stdout` resolves the
canned degraded record with `quotaExhausted=true`; (3) otherwise the
output is parsed even on a non-zero exit, and `success` is `code === 0`. -/
def spawnCodexClose (applyChanges : Bool) (timeoutMs : Nat) (timedOut : Bool)
    (stdout stderr : Str) (code : Option Int) : CodexResult :=
  let mode := if applyChanges then Mode.apply else Mode.suggest
  if timedOut then
    { success := false, mode := mode, executionPath := ExecPath.codex_cli,
      rawOutput := stdout, rawError := stderr,
      error := some (("Codex CLI timed out after ").data ++ natRepr timeoutMs ++ ("ms").data),
      quotaExhausted := false,
      feasibility := getDefaultParsedResult.feasibility,
      codeReview := getDefaultParsedResult.codeReview,
      implementationAnalysis := getDefaultParsedResult.implementationAnalysis,
      changesApplied := getDefaultParsedResult.changesApplied }
  else if isQuotaError stderr || isQuotaError stdout then
    { success := false, mode := mode, executionPath := ExecPath.codex_cli,
      rawOutput := stdout, rawError := stderr,
      error := some ("Codex CLI Pro quota exhausted").data,
      quotaExhausted := true,
      feasibility := getDefaultParsedResult.feasibility,
      codeReview := getDefaultParsedResult.codeReview,
      implementationAnalysis := getDefaultParsedResult.implementationAnalysis,
      changesApplied := getDefaultParsedResult.changesApplied }
  else
    let parsed := parseCodexOutput (jsOrStr stdout stderr)
    { success := code == some 0, mode := mode, executionPath := ExecPath.codex_cli,
      rawOutput := stdout, rawError := stderr,
      error := if code == some 0 then none
               else some (("Codex CLI exited with code ").data ++ exitCodeRepr code),
      quotaExhausted := false,
      feasibility := parsed.feasibility,
      codeReview := parsed.codeReview,
      implementationAnalysis := parsed.implementationAnalysis,
      changesApplied := parsed.changesApplied }

/-- The `child.on('error')` handler of `spawnCodex` (codex.ts, lines
397-426): a spawn failure (missing executable if `code === 'ENOENT'`,
any other spawn error otherwise) always resolves the canned degraded
record. -/
def spawnCodexError (applyChanges : Bool) (enoent : Bool) (message : Str) : CodexResult :=
  let mode := if applyChanges then Mode.apply else Mode.suggest
  if enoent then
    { success := false, mode := mode, executionPath := ExecPath.codex_cli,
      rawOutput := [],
      rawError := ("Codex CLI not found. Please install it with: npm install -g @openai/codex").data,
      error := some ("Codex CLI not installed").data,
      quotaExhausted := false,
      feasibility := getDefaultParsedResult.feasibility,
      codeReview := getDefaultParsedResult.codeReview,
      implementationAnalysis := getDefaultParsedResult.implementationAnalysis,
      changesApplied := getDefaultParsedResult.changesApplied }
  else
    { success := false, mode := mode, executionPath := ExecPath.codex_cli,
      rawOutput := [], rawError := message,
      error := some message,
      quotaExhausted := false,
      feasibility := getDefaultParsedResult.feasibility,
      codeReview := getDefaultParsedResult.codeReview,
      implementationAnalysis := getDefaultParsedResult.implementationAnalysis,
      changesApplied := getDefaultParsedResult.changesApplied }

/-!
## Change proposals (`src/services/change-applier.ts`)
-/

/-- `ProposedChange.type` (change-applier.ts, line 14). -/
inductive ChangeType where
  | file_create : ChangeType
  | file_modify : ChangeType
  | file_delete : ChangeType
  | dependency_add : ChangeType
  | config_change : ChangeType
deriving DecidableEq

/-- `'low' | 'medium' | 'high'` (`ProposedChange.impact`). -/
inductive Impact where
  | low : Impact
  | medium : Impact
  | high : Impact
deriving DecidableEq

/-- `ProposedChange` (change-applier.ts, lines 13-19). -/
structure ProposedChange where
  type : ChangeType
  path : Str
  description : Str
  diff : Option Str
  impact : Impact
deriving DecidableEq

/-- The string-literal value of a `ProposedChange.type` (used by the
template literals `${change.type}` of the summary). -/
def changeTypeStr : ChangeType → Str
  | ChangeType.file_create => ("file_create").data
  | ChangeType.file_modify => ("file_modify").data
  | ChangeType.file_delete => ("file_delete").data
  | ChangeType.dependency_add => ("dependency_add").data
  | ChangeType.config_change => ("config_change").data

/-- `assessImpact` (change-applier.ts, lines 142-172): first the
high-impact test on the lower-cased path (critical files, or a delete),
then the medium-impact test (source-code extension, or a dependency
addition), else low. -/
def assessImpact (type : ChangeType) (path : Str) : Impact :=
  let pathLower := toLowerStr path
  if containsSub pathLower ("package.json").data ||
     containsSub pathLower ("tsconfig").data ||
     containsSub pathLower (".env").data ||
     containsSub pathLower ("config").data ||
     containsSub pathLower ("main").data ||
     containsSub pathLower ("index").data ||
     type == ChangeType.file_delete then
    Impact.high
  else if endsWith pathLower (".ts").data ||
     endsWith pathLower (".tsx").data ||
     endsWith pathLower (".js").data ||
     endsWith pathLower (".jsx").data ||
     endsWith pathLower (".py").data ||
     type == ChangeType.dependency_add then
    Impact.medium
  else
    Impact.low

/-- The sensitive-marker test of the spec's impact rule, §4.3: "path or
filename matches a closed set of sensitive markers (dependency
manifest, compiler/build config, secrets file, generic 'config,'
'main,' or 'index')" — written from the spec's words for the
refinement comparison with `assessImpact`. -/
def sensitiveMarkerSpec (pathLower : Str) : Bool :=
  containsSub pathLower ("package.json").data ||
  containsSub pathLower ("tsconfig").data ||
  containsSub pathLower (".env").data ||
  containsSub pathLower ("config").data ||
  containsSub pathLower ("main").data ||
  containsSub pathLower ("index").data

/-- The recognized source-code extensions of the spec's impact rule,
§4.3 — written from the spec's words for the refinement comparison. -/
def sourceCodeExtSpec (pathLower : Str) : Bool :=
  endsWith pathLower (".ts").data || endsWith pathLower (".tsx").data ||
  endsWith pathLower (".js").data || endsWith pathLower (".jsx").data ||
  endsWith pathLower (".py").data

/-- The spec's impact classification (§4.3): a fixed priority rule,
evaluated top-down, first match wins — written from the spec's words
for the refinement comparison with `assessImpact`. -/
def assessImpactSpec (type : ChangeType) (path : Str) : Impact :=
  if sensitiveMarkerSpec (toLowerStr path) || type == ChangeType.file_delete then
    Impact.high
  else if sourceCodeExtSpec (toLowerStr path) || type == ChangeType.dependency_add then
    Impact.medium
  else
    Impact.low

/-- JavaScript truthiness of `change.diff` (`string | undefined`): an
absent or empty diff is falsy. -/
def diffTruthy (d : Option Str) : Bool :=
  match d with
  | some s => !s.isEmpty
  | none => false

/-- `generateConfirmationSummary` (change-applier.ts, lines 177-231):
`'No changes detected.'` for an empty list, otherwise a header, the
proposals grouped by impact descending, and the attached diffs. -/
def generateConfirmationSummary (changes : List ProposedChange) : Str :=
  if changes.length == 0 then ("No changes detected.").data
  else
    let highImpact := changes.filter fun c => c.impact == Impact.high
    let mediumImpact := changes.filter fun c => c.impact == Impact.medium
    let lowImpact := changes.filter fun c => c.impact == Impact.low
    let lines : List Str :=
      [("## Proposed Changes").data, [],
       ("Total: ").data ++ natRepr changes.length ++ (" change(s)").data, []] ++
      (if highImpact.length > 0 then
        [("### High Impact (requires careful review)").data] ++
        (highImpact.map fun c =>
          ("- **").data ++ changeTypeStr c.type ++ ("**: ").data ++ c.description) ++
        [[]]
       else []) ++
      (if mediumImpact.length > 0 then
        [("### Medium Impact").data] ++
        (mediumImpact.map fun c =>
          ("- ").data ++ changeTypeStr c.type ++ (": ").data ++ c.description) ++
        [[]]
       else []) ++
      (if lowImpact.length > 0 then
        [("### Low Impact").data] ++
        (lowImpact.map fun c =>
          ("- ").data ++ changeTypeStr c.type ++ (": ").data ++ c.description) ++
        [[]]
       else []) ++
      (let changesWithDiffs := changes.filter fun c => diffTruthy c.diff
       if changesWithDiffs.length > 0 then
         [("### Diffs").data] ++
         (changesWithDiffs.flatMap fun c =>
           [("\n**").data ++ c.path ++ ("**:").data, ("```diff").data,
            c.diff.getD [], ("```").data])
       else [])
    List.intercalate ("\n").data lines

/-- The conditional sentence of the confirmation message: the
high-impact warning when `highImpactCount > 0`, the reassuring sentence
otherwise (the ternary inside `createConfirmationRequest`,
change-applier.ts, lines 251-253). -/
def confirmationNotice (highImpactCount : Nat) : Str :=
  if highImpactCount > 0 then
    ("WARNING: This includes ").data ++ natRepr highImpactCount ++
      (" high-impact change(s) that may significantly affect the project.").data
  else
    ("These changes appear to be relatively safe.").data

/-- `createConfirmationRequest` (change-applier.ts, lines 237-262):
returns `(message, requiresApproval, highImpactCount)`. -/
def createConfirmationRequest (changes : List ProposedChange) :
    Str × Bool × Nat :=
  let highImpactCount := (changes.filter fun c => c.impact == Impact.high).length
  let summary := generateConfirmationSummary changes
  let message :=
    summary ++ ("\n\n---\n\n**Confirmation Required**\n\n").data ++
    confirmationNotice highImpactCount ++
    ("\n\nTo apply these changes, re-run the validation with `apply_changes: true` and confirm you have reviewed the changes above.").data
  (message, decide (changes.length > 0), highImpactCount)

/-!
## The execution manager (`src/services/execution-manager.ts`)

The manager's mutable fields are collected in `EMState`; each method is
a pure state-transition function.  The network/process effects are
modelled by passing, as extra arguments, the outcome the corresponding
backend call would produce: `primaryResult` stands for the value the
awaited `codexService.execute(options)` resolves with, and `apiOutcome`
stands for the OpenAI chat-completion call (`Except.ok content` for a
response, `Except.error message` for a thrown error).
-/

/-- The mutable state of an `ExecutionManager` instance:
`codexCliAvailable` (`boolean | null`, `null` before any probe),
whether `this.openai` is non-null (an API key was configured),
`fallbackTriggered` and `fallbackReason`. -/
structure EMState where
  codexCliAvailable : Option Bool
  openaiConfigured : Bool
  fallbackTriggered : Bool
  fallbackReason : Option Str
deriving DecidableEq

/-- JavaScript truthiness of `this.codexCliAvailable : boolean | null`. -/
def truthy : Option Bool → Bool
  | some b => b
  | none => false

/-- `executeViaOpenAI` (execution-manager.ts, lines 163-305).  On a
successful completion the response content is parsed with the same
parser as the CLI path and `changesApplied` is the literal `[]`
("OpenAI API path doesn't apply changes"); a thrown error is mapped to
a degraded result, classified as timeout (message containing
`'aborted'` or `'timeout'`) or quota (lower-cased message containing
`'rate limit'` or `'quota'`, or message containing `'429'`). -/
def executeViaOpenAI (st : EMState) (applyChanges : Bool) (timeoutMs : Nat)
    (apiOutcome : Except Str Str) : CodexResult :=
  let mode := if applyChanges then Mode.apply else Mode.suggest
  if !st.openaiConfigured then
    { success := false, mode := mode, executionPath := ExecPath.openai_api,
      rawOutput := [], rawError := ("OpenAI API not configured").data,
      error := some ("OpenAI API not configured - set OPENAI_API_KEY environment variable").data,
      quotaExhausted := false,
      feasibility := getDefaultParsedResult.feasibility,
      codeReview := getDefaultParsedResult.codeReview,
      implementationAnalysis := getDefaultParsedResult.implementationAnalysis,
      changesApplied := getDefaultParsedResult.changesApplied }
  else
    match apiOutcome with
    | Except.ok content =>
      let parsed := parseCodexOutput content
      { success := true, mode := mode, executionPath := ExecPath.openai_api,
        rawOutput := content, rawError := [],
        error := none, quotaExhausted := false,
        feasibility := parsed.feasibility,
        codeReview := parsed.codeReview,
        implementationAnalysis := parsed.implementationAnalysis,
        changesApplied := [] }
    | Except.error errorMessage =>
      if containsSub errorMessage ("aborted").data ||
         containsSub errorMessage ("timeout").data then
        { success := false, mode := mode, executionPath := ExecPath.openai_api,
          rawOutput := [], rawError := ("Request timed out").data,
          error := some (("OpenAI API request timed out after ").data ++
            natRepr timeoutMs ++ ("ms").data),
          quotaExhausted := false,
          feasibility := getDefaultParsedResult.feasibility,
          codeReview := getDefaultParsedResult.codeReview,
          implementationAnalysis := getDefaultParsedResult.implementationAnalysis,
          changesApplied := getDefaultParsedResult.changesApplied }
      else
        let quota :=
          containsSub (toLowerStr errorMessage) ("rate limit").data ||
          containsSub (toLowerStr errorMessage) ("quota").data ||
          containsSub errorMessage ("429").data
        { success := false, mode := mode, executionPath := ExecPath.openai_api,
          rawOutput := [], rawError := errorMessage,
          error := some errorMessage,
          quotaExhausted := quota,
          feasibility := getDefaultParsedResult.feasibility,
          codeReview := getDefaultParsedResult.codeReview,
          implementationAnalysis := getDefaultParsedResult.implementationAnalysis,
          changesApplied := getDefaultParsedResult.changesApplied }

/-- A run of `ExecutionManager.execute`: the returned result, the state
after the call, and how many times each backend was invoked during the
call. -/
structure ExecTrace where
  result : CodexResult
  state : EMState
  primaryCalls : Nat
  secondaryCalls : Nat
deriving DecidableEq

/-- `ExecutionManager.execute` (execution-manager.ts, lines 118-157).
If the CLI is available it is invoked (once); when its result reports
`quotaExhausted` and the OpenAI client exists, the sticky fallback flag
and reason are set and the OpenAI path is invoked (once) — its outcome,
successful or not, is returned without any further hop.  Any other CLI
result is returned as-is.  If the CLI is unavailable, the OpenAI path
is invoked directly, sticky-setting the flag only if it was not already
set (`previousFallback`).  With neither path available the method
throws (`none`). -/
def execute (st : EMState) (applyChanges : Bool) (timeoutMs : Nat)
    (primaryResult : CodexResult) (apiOutcome : Except Str Str) : Option ExecTrace :=
  if truthy st.codexCliAvailable then
    let result := primaryResult
    if result.quotaExhausted && st.openaiConfigured then
      let st' := { st with fallbackTriggered := true,
                           fallbackReason := some ("Codex CLI Pro quota exhausted").data }
      some { result := executeViaOpenAI st' applyChanges timeoutMs apiOutcome,
             state := st', primaryCalls := 1, secondaryCalls := 1 }
    else
      some { result := result, state := st, primaryCalls := 1, secondaryCalls := 0 }
  else if st.openaiConfigured then
    let st' := if !st.fallbackTriggered then
        { st with fallbackTriggered := true,
                  fallbackReason := some ("Codex CLI not installed").data }
      else st
    some { result := executeViaOpenAI st' applyChanges timeoutMs apiOutcome,
           state := st', primaryCalls := 0, secondaryCalls := 1 }
  else
    none

/-- `resetFallbackState` (execution-manager.ts, lines 342-345). -/
def resetFallbackState (st : EMState) : EMState :=
  { st with fallbackTriggered := false, fallbackReason := none }

/-- `ExecutionManager.initialize` (execution-manager.ts, lines 79-96),
modelled as `managerInit`.  Every call runs the installation probe
(`await this.codexService.isInstalled()`, whose result is the
`probeResult` argument) and stores it in `codexCliAvailable`; when the
probe is negative and no OpenAI client exists the method throws, after
the field was already assigned.  Returns the mutated state and the
error message of the throw, if any. -/
def managerInit (st : EMState) (probeResult : Bool) : EMState × Option Str :=
  let st' := { st with codexCliAvailable := some probeResult }
  (st',
   if !probeResult && !st'.openaiConfigured then
     some ("No execution path available. Either install Codex CLI (npm install -g @openai/codex) or set OPENAI_API_KEY environment variable.").data
   else
     none)

/-- A run of the singleton factory `getExecutionManager`
(execution-manager.ts, lines 349-357): the value returned (or the
thrown error), the new content of the module-level `instance` variable,
and whether an installation probe was performed during the call. -/
structure FactoryTrace where
  returned : Except Str EMState
  inst : Option EMState
  probePerformed : Bool

/-- `getExecutionManager`: when `instance` is already set it is
returned unchanged and `initialize` is not called; otherwise a fresh
manager is constructed (with `codexCliAvailable = null` and the
configured OpenAI availability) and initialized — note that `instance`
is assigned before `initialize()` is awaited, so it stays set even when
initialization throws. -/
def getExecutionManager (inst : Option EMState) (openaiConfigured probeResult : Bool) :
    FactoryTrace :=
  match inst with
  | some em => { returned := Except.ok em, inst := some em, probePerformed := false }
  | none =>
    let em0 : EMState :=
      { codexCliAvailable := none, openaiConfigured := openaiConfigured,
        fallbackTriggered := false, fallbackReason := none }
    let r := managerInit em0 probeResult
    { returned :=
        match r.2 with
        | none => Except.ok r.1
        | some e => Except.error e,
      inst := some r.1, probePerformed := true }

/-!
## Auxiliary definitions for statements and witnesses
-/

/-- The four parsed sub-records of a `CodexResult` (the fields the
spread `...this.getDefaultParsedResult()` or `...parsed` populates). -/
def parsedFields (r : CodexResult) : ParsedOutput :=
  { feasibility := r.feasibility, codeReview := r.codeReview,
    implementationAnalysis := r.implementationAnalysis,
    changesApplied := r.changesApplied }

/-- A manager state with the CLI available, an OpenAI key configured
and no fallback recorded yet. -/
def sampleEMState : EMState :=
  { codexCliAvailable := some true, openaiConfigured := true,
    fallbackTriggered := false, fallbackReason := none }

/-- A manager state whose sticky fallback flag is already set. -/
def stickyEMState : EMState :=
  { codexCliAvailable := some true, openaiConfigured := true,
    fallbackTriggered := true,
    fallbackReason := some ("Codex CLI Pro quota exhausted").data }

/-- A CLI outcome whose stderr carries a quota phrase. -/
def sampleQuotaResult : CodexResult :=
  spawnCodexClose false 1000 false [] ("429 Too Many Requests").data (some 1)

/-- A fully successful CLI outcome. -/
def sampleOkResult : CodexResult :=
  spawnCodexClose false 1000 false ("Feasibility: 90").data [] (some 0)

/-- A single high-impact proposal (a delete). -/
def sampleHighChange : ProposedChange :=
  { type := ChangeType.file_delete, path := ("src/app.ts").data,
    description := ("Delete file: app.ts").data, diff := none,
    impact := Impact.high }

/-!
## Helper lemmas
-/

/-- A prefix occurrence is a substring occurrence. -/
theorem containsSub_of_isPrefixOf {s nee : Str} (h : nee.isPrefixOf s = true) :
    containsSub s nee = true := by
  unfold containsSub
  exact Bool.or_eq_true_iff.mpr (Or.inl h)

/-- Substring containment is preserved by prepending. -/
theorem containsSub_append_left (a : Str) {b nee : Str}
    (h : containsSub b nee = true) : containsSub (a ++ b) nee = true := by
  induction a with
  | nil => simpa using h
  | cons c t ih =>
    unfold containsSub
    exact Bool.or_eq_true_iff.mpr (Or.inr ih)

/-- `nee` is contained in `nee ++ rest`. -/
theorem containsSub_self_append (nee rest : Str) :
    containsSub (nee ++ rest) nee = true :=
  containsSub_of_isPrefixOf (List.isPrefixOf_iff_prefix.mpr (List.prefix_append nee rest))

/-- Two incomparable strings cannot both be suffixes of the same
string. -/
theorem endsWith_excl {p q : Str} (h1 : endsWith q p = false) (h2 : endsWith p q = false)
    {s : Str} (hp : endsWith s p = true) : endsWith s q = false := by
  by_contra hq
  have hq' : endsWith s q = true := by
    cases hqe : endsWith s q with
    | false => exact absurd hqe hq
    | true => rfl
  have hsp : p <:+ s := List.isSuffixOf_iff_suffix.mp hp
  have hsq : q <:+ s := List.isSuffixOf_iff_suffix.mp hq'
  rcases List.suffix_or_suffix_of_suffix hsp hsq with h | h
  · have : endsWith q p = true := List.isSuffixOf_iff_suffix.mpr h
    rw [h1] at this
    exact Bool.false_ne_true this
  · have : endsWith p q = true := List.isSuffixOf_iff_suffix.mpr h
    rw [h2] at this
    exact Bool.false_ne_true this

/-!
## Claim theorems
-/

/-- C5: the structured extraction engine is pure and deterministic: for
every fixed input string, two calls of `parseCodexOutput` on the same
string yield identical records in every field — the record is a
function of the text alone, with no dependence on external state. -/
theorem extraction_deterministic (s t : Str) (h : s = t) :
    parseCodexOutput s = parseCodexOutput t := by rw [h]

theorem extraction_deterministic_witness :
    parseCodexOutput ("Feasibility: 85").data = parseCodexOutput ("Feasibility: 85").data :=
  extraction_deterministic ("Feasibility: 85").data ("Feasibility: 85").data rfl

/-- C1 counterexample: `parseCodexOutput` does not default an absent
numeric section to 50 — on the empty input both scores are 70, not
50. -/
theorem extract_empty_score_ne_fifty :
    (parseCodexOutput ("").data).feasibility.score ≠ 50 ∧
    (parseCodexOutput ("").data).implementationAnalysis.completeness ≠ 50 := by
  decide

/-- C1 (amended): when a numeric section is absent or unparsable,
`parseCodexOutput` defaults that score to 70 (not 50), and complexity
to medium: in particular on the empty input it yields feasibility score
70, completeness 70, complexity medium, and every list field empty. -/
theorem extract_defaults :
    ((parseCodexOutput ("").data).feasibility.score = 70 ∧
     (parseCodexOutput ("").data).implementationAnalysis.completeness = 70 ∧
     (parseCodexOutput ("").data).implementationAnalysis.estimated_complexity = Complexity.medium ∧
     (parseCodexOutput ("").data).feasibility.blockers = [] ∧
     (parseCodexOutput ("").data).feasibility.risks = [] ∧
     (parseCodexOutput ("").data).feasibility.dependencies_missing = [] ∧
     (parseCodexOutput ("").data).implementationAnalysis.gaps = [] ∧
     (parseCodexOutput ("").data).codeReview.suggestions = [] ∧
     (parseCodexOutput ("").data).codeReview.best_practice_violations = [] ∧
     (parseCodexOutput ("").data).codeReview.improvements = [] ∧
     (parseCodexOutput ("").data).changesApplied = []) ∧
    (∀ output : Str, reSearch feasibilityPre digitsCap output = none →
       (parseCodexOutput output).feasibility.score = 70) ∧
    (∀ output : Str, reSearch completenessPre digitsCap output = none →
       (parseCodexOutput output).implementationAnalysis.completeness = 70) ∧
    (∀ output : Str, reSearch complexityPre complexityCap output = none →
       (parseCodexOutput output).implementationAnalysis.estimated_complexity = Complexity.medium) := by
  refine ⟨by decide, ?_, ?_, ?_⟩
  · intro output h
    simp [parseCodexOutput, h]
  · intro output h
    simp [parseCodexOutput, h]
  · intro output h
    simp [parseCodexOutput, h]

theorem extract_defaults_witness :
    (parseCodexOutput ("no numeric sections here").data).feasibility.score = 70 :=
  extract_defaults.2.1 ("no numeric sections here").data (by decide)

/-- C10: every result produced by the OpenAI fallback path
(`executeViaOpenAI`) has an empty `changesApplied` list — in
particular every successful fallback result, even when the request was
made with `applyChanges = true`, reports no applied change. -/
theorem openai_path_changes_applied_empty (st : EMState) (applyChanges : Bool)
    (timeoutMs : Nat) (apiOutcome : Except Str Str) :
    (executeViaOpenAI st applyChanges timeoutMs apiOutcome).changesApplied = [] := by
  unfold executeViaOpenAI
  cases applyChanges <;> cases hcfg : st.openaiConfigured <;> cases apiOutcome <;>
    simp [hcfg, getDefaultParsedResult] <;> split <;> rfl

/-- C9 counterexample: `initialize` (`managerInit`) is not a no-op on a
second call — every call re-runs the installation probe and overwrites
the cached availability: re-initializing a manager that had probed
`true` with a probe now returning `false` changes its state. -/
theorem manager_init_reprobe :
    managerInit sampleEMState false =
      ({ codexCliAvailable := some false, openaiConfigured := true,
         fallbackTriggered := false, fallbackReason := none }, none) ∧
    (managerInit sampleEMState false).1 ≠ sampleEMState := by
  decide

/-- C9 (amended): `initialize` re-runs the installation probe on every
call and stores its result; the once-only probing holds at the
`getExecutionManager` factory instead: when the module-level instance
already exists, the factory returns it unchanged without constructing
or initializing (no probe), and only the first call (instance absent)
probes. -/
theorem manager_probe_once_via_factory :
    (∀ st probeResult, ((managerInit st probeResult).1).codexCliAvailable = some probeResult) ∧
    (∀ em openaiConfigured probeResult,
       getExecutionManager (some em) openaiConfigured probeResult =
         { returned := Except.ok em, inst := some em, probePerformed := false }) ∧
    (∀ openaiConfigured probeResult,
       (getExecutionManager none openaiConfigured probeResult).probePerformed = true) :=
  ⟨fun _ _ => rfl, fun _ _ _ => rfl, fun _ _ => rfl⟩

/-- C2 counterexample: an invocation that merely exits non-zero (no
timeout, no quota phrase) has `succeeded = false`, yet extraction is
not skipped: the raw text is parsed (score 85 from the text, `risks`
empty) instead of substituting the canned degraded record. -/
theorem nonzero_exit_still_parses :
    (spawnCodexClose false 300000 false ("feasibility: 85").data [] (some 1)).success = false ∧
    (spawnCodexClose false 300000 false ("feasibility: 85").data [] (some 1)).feasibility.score = 85 ∧
    (spawnCodexClose false 300000 false ("feasibility: 85").data [] (some 1)).feasibility.risks = [] ∧
    parsedFields (spawnCodexClose false 300000 false ("feasibility: 85").data [] (some 1)) ≠
      getDefaultParsedResult ∧
    containsSub (toLowerStr (("Unable to complete analysis").data)) (("incomplete").data) = false := by
  decide

/-- C2 (amended): the canned degraded record (scores 50/50, exactly one
risk "Unable to complete analysis", exactly one gap "Analysis
incomplete" — only the gap carries an "incomplete" marker —,
complexity medium, all other lists empty) is substituted, with
extraction skipped, exactly for a fired timeout, a quota match, or a
spawn error; an invocation that merely exits non-zero without quota
text still has its raw text parsed. -/
theorem degraded_record_policy :
    (∀ a t so se code, parsedFields (spawnCodexClose a t true so se code) = getDefaultParsedResult ∧
       (spawnCodexClose a t true so se code).success = false) ∧
    (∀ a t so se code, (isQuotaError se || isQuotaError so) = true →
       parsedFields (spawnCodexClose a t false so se code) = getDefaultParsedResult ∧
       (spawnCodexClose a t false so se code).success = false ∧
       (spawnCodexClose a t false so se code).quotaExhausted = true) ∧
    (∀ a enoent msg, parsedFields (spawnCodexError a enoent msg) = getDefaultParsedResult ∧
       (spawnCodexError a enoent msg).success = false) ∧
    (∀ a t so se code, (isQuotaError se || isQuotaError so) = false →
       parsedFields (spawnCodexClose a t false so se code) = parseCodexOutput (jsOrStr so se)) ∧
    (getDefaultParsedResult.feasibility.score = 50 ∧
     getDefaultParsedResult.implementationAnalysis.completeness = 50 ∧
     getDefaultParsedResult.feasibility.risks = [("Unable to complete analysis").data] ∧
     getDefaultParsedResult.implementationAnalysis.gaps = [("Analysis incomplete").data] ∧
     getDefaultParsedResult.implementationAnalysis.estimated_complexity = Complexity.medium ∧
     getDefaultParsedResult.feasibility.blockers = [] ∧
     getDefaultParsedResult.feasibility.dependencies_missing = [] ∧
     getDefaultParsedResult.codeReview.suggestions = [] ∧
     getDefaultParsedResult.codeReview.best_practice_violations = [] ∧
     getDefaultParsedResult.codeReview.improvements = [] ∧
     getDefaultParsedResult.changesApplied = [] ∧
     containsSub (toLowerStr (("Analysis incomplete").data)) (("incomplete").data) = true) := by
  refine ⟨fun a t so se code => ⟨rfl, rfl⟩, ?_, fun a enoent msg => ?_, ?_, by decide⟩
  · intro a t so se code h
    refine ⟨?_, ?_, ?_⟩ <;> simp [spawnCodexClose, parsedFields, h]
  · cases enoent <;> exact ⟨rfl, rfl⟩
  · intro a t so se code h
    simp [spawnCodexClose, parsedFields, h]

theorem degraded_record_policy_witness :
    parsedFields (spawnCodexClose false 1000 false [] ("429 Too Many Requests").data (some 0)) =
      getDefaultParsedResult :=
  (degraded_record_policy.2.1 false 1000 [] ("429 Too Many Requests").data (some 0) (by decide)).1

/-- C3: within one `execute` call at most one failover hop occurs.
When the Primary result reports quota exhaustion and the Secondary is
configured, the Secondary is invoked exactly once and its outcome
(successful or not) is returned; for a Primary success or any
non-quota Primary failure, the Primary outcome is returned as-is with
the Secondary never invoked; in every case each backend is invoked at
most once, so a Secondary failure is terminal and the Primary is never
invoked twice. -/
theorem failover_single_hop (st : EMState) (applyChanges : Bool) (timeoutMs : Nat)
    (primaryResult : CodexResult) (apiOutcome : Except Str Str) :
    (truthy st.codexCliAvailable = true → primaryResult.quotaExhausted = true →
     st.openaiConfigured = true →
       execute st applyChanges timeoutMs primaryResult apiOutcome =
         some { result := executeViaOpenAI
                  { st with fallbackTriggered := true,
                            fallbackReason := some ("Codex CLI Pro quota exhausted").data }
                  applyChanges timeoutMs apiOutcome,
                state := { st with fallbackTriggered := true,
                                   fallbackReason := some ("Codex CLI Pro quota exhausted").data },
                primaryCalls := 1, secondaryCalls := 1 }) ∧
    (truthy st.codexCliAvailable = true →
     (primaryResult.quotaExhausted = false ∨ st.openaiConfigured = false) →
       execute st applyChanges timeoutMs primaryResult apiOutcome =
         some { result := primaryResult, state := st,
                primaryCalls := 1, secondaryCalls := 0 }) ∧
    (∀ tr, execute st applyChanges timeoutMs primaryResult apiOutcome = some tr →
       tr.primaryCalls ≤ 1 ∧ tr.secondaryCalls ≤ 1) := by
  refine ⟨?_, ?_, ?_⟩
  · intro hcli hq hcfg
    simp [execute, hcli, hq, hcfg]
  · intro hcli hor
    rcases hor with h | h <;> simp [execute, hcli, h]
  · intro tr htr
    simp only [execute] at htr
    split at htr
    · split at htr <;> (injection htr with h; rw [← h]; exact ⟨Nat.le_refl 1, by simp⟩)
    · split at htr
      · injection htr with h
        rw [← h]
        exact ⟨by simp, Nat.le_refl 1⟩
      · exact absurd htr (by simp)

theorem failover_single_hop_witness :
    execute sampleEMState false 1000 sampleQuotaResult (Except.ok ("Feasibility: 80").data) =
      some { result := executeViaOpenAI
               { sampleEMState with fallbackTriggered := true,
                                    fallbackReason := some ("Codex CLI Pro quota exhausted").data }
               false 1000 (Except.ok ("Feasibility: 80").data),
             state := { sampleEMState with fallbackTriggered := true,
                                           fallbackReason := some ("Codex CLI Pro quota exhausted").data },
             primaryCalls := 1, secondaryCalls := 1 } :=
  (failover_single_hop sampleEMState false 1000 sampleQuotaResult
      (Except.ok ("Feasibility: 80").data)).1 (by decide) (by decide) (by decide)

/-- C4: the fallback flag is sticky — `execute` never clears a set
`fallbackTriggered`: whatever the call does (including a subsequent
fully successful Primary call), the state after the call still has the
flag set; only `resetFallbackState` clears it (and the reason). -/
theorem fallback_flag_sticky :
    (∀ st applyChanges timeoutMs primaryResult apiOutcome tr,
       execute st applyChanges timeoutMs primaryResult apiOutcome = some tr →
       st.fallbackTriggered = true → tr.state.fallbackTriggered = true) ∧
    (∀ st : EMState, (resetFallbackState st).fallbackTriggered = false ∧
       (resetFallbackState st).fallbackReason = none) := by
  refine ⟨?_, fun st => ⟨rfl, rfl⟩⟩
  intro st a t pr api tr htr hst
  simp only [execute] at htr
  split at htr
  · split at htr <;> (injection htr with h; rw [← h])
    all_goals exact hst
  · split at htr
    · injection htr with h
      rw [← h]
      have hcond : (!st.fallbackTriggered) = false := by rw [hst]; rfl
      simp only [hcond, Bool.false_eq_true, if_false]
      exact hst
    · exact absurd htr (by simp)

theorem fallback_flag_sticky_witness :
    ((execute stickyEMState false 1000 sampleOkResult (Except.ok [])).map
      fun tr => tr.state.fallbackTriggered) = some true := by
  have hexec : execute stickyEMState false 1000 sampleOkResult (Except.ok []) =
      some { result := sampleOkResult, state := stickyEMState,
             primaryCalls := 1, secondaryCalls := 0 } := by decide
  have h := fallback_flag_sticky.1 stickyEMState false 1000 sampleOkResult (Except.ok [])
    _ hexec rfl
  rw [hexec]
  simpa using h

/-- C6: failure classification is case-insensitive textual matching of
stdout and stderr against the fixed quota phrase list, and a match sets
the quota classification regardless of the process exit code: for every
exit code, the close handler reports `quotaExhausted` exactly when
`isQuotaError` accepts stderr or stdout; output containing
"429 Too Many Requests" classifies as quota exhaustion (even with exit
code 0), while output containing only "unknown flag" with a non-zero
exit is a plain process error (`success = false`, exit-code error
message, not quota). -/
theorem quota_classification :
    (∀ applyChanges timeoutMs stdout stderr code,
       (spawnCodexClose applyChanges timeoutMs false stdout stderr code).quotaExhausted =
         (isQuotaError stderr || isQuotaError stdout)) ∧
    ((spawnCodexClose false 1000 false [] ("429 Too Many Requests").data (some 0)).quotaExhausted
       = true ∧
     isQuotaError ("RATE LIMIT reached").data = true ∧
     (spawnCodexClose false 1000 false [] ("error: unknown flag").data (some 1)).quotaExhausted
       = false ∧
     (spawnCodexClose false 1000 false [] ("error: unknown flag").data (some 1)).success = false ∧
     (spawnCodexClose false 1000 false [] ("error: unknown flag").data (some 1)).error =
       some (("Codex CLI exited with code 1").data)) := by
  refine ⟨?_, by decide⟩
  intro a t so se code
  cases h : (isQuotaError se || isQuotaError so) <;> simp [spawnCodexClose, h]

/-- C7 counterexample: a `.md` path of non-delete kind is not always
low impact — `index.md` modified is high (its path contains the
sensitive marker "index"), and a `.md` path of kind `dependency_add`
is medium. -/
theorem impact_md_counterexample :
    assessImpact ChangeType.file_modify ("index.md").data = Impact.high ∧
    assessImpact ChangeType.file_modify ("index.md").data ≠ Impact.low ∧
    assessImpact ChangeType.dependency_add ("notes.md").data = Impact.medium := by
  decide

/-- C7 (amended): impact classification is the fixed top-down
first-match-wins priority rule (sensitive marker or delete → high;
source-code extension or dependency addition → medium; otherwise low);
a delete-kind proposal is always high regardless of path; and a `.md`
path of non-delete kind is low provided the kind is also not
`dependency_add` and the path carries no sensitive marker. -/
theorem impact_priority_rule :
    (∀ type path, assessImpact type path = assessImpactSpec type path) ∧
    (∀ path, assessImpact ChangeType.file_delete path = Impact.high) ∧
    (∀ type path, type ≠ ChangeType.file_delete → type ≠ ChangeType.dependency_add →
       endsWith (toLowerStr path) ((".md").data) = true →
       sensitiveMarkerSpec (toLowerStr path) = false →
       assessImpact type path = Impact.low) := by
  have hspec : ∀ type path, assessImpact type path = assessImpactSpec type path := by
    intro t p
    simp [assessImpact, assessImpactSpec, sensitiveMarkerSpec, sourceCodeExtSpec, Bool.or_assoc]
  refine ⟨hspec, ?_, ?_⟩
  · intro p
    simp [assessImpact]
  · intro t p ht hd hmd hsens
    rw [hspec]
    have hdel : (t == ChangeType.file_delete) = false := by
      cases t <;> simp_all
    have hdep : (t == ChangeType.dependency_add) = false := by
      cases t <;> simp_all
    have hts : endsWith (toLowerStr p) ((".ts").data) = false :=
      @endsWith_excl ((".md").data) ((".ts").data) (by decide) (by decide) _ hmd
    have htsx : endsWith (toLowerStr p) ((".tsx").data) = false :=
      @endsWith_excl ((".md").data) ((".tsx").data) (by decide) (by decide) _ hmd
    have hjs : endsWith (toLowerStr p) ((".js").data) = false :=
      @endsWith_excl ((".md").data) ((".js").data) (by decide) (by decide) _ hmd
    have hjsx : endsWith (toLowerStr p) ((".jsx").data) = false :=
      @endsWith_excl ((".md").data) ((".jsx").data) (by decide) (by decide) _ hmd
    have hpy : endsWith (toLowerStr p) ((".py").data) = false :=
      @endsWith_excl ((".md").data) ((".py").data) (by decide) (by decide) _ hmd
    simp [assessImpactSpec, sourceCodeExtSpec, hsens, hdel, hdep, hts, htsx, hjs, hjsx, hpy]

theorem impact_priority_rule_witness :
    assessImpact ChangeType.file_modify ("readme.md").data = Impact.low :=
  impact_priority_rule.2.2 ChangeType.file_modify ("readme.md").data
    (by decide) (by decide) (by decide) (by decide)

/-- C8: `createConfirmationRequest` requires approval exactly when the
proposal list is non-empty (even when every proposal is low impact);
the empty list yields `requiresApproval = false` and the
"No changes detected." message; and the message embeds the distinct
high-impact warning sentence exactly when `highImpactCount > 0` (the
reassuring alternative sentence is used when it is 0). -/
theorem confirmation_gating :
    (∀ changes, ((createConfirmationRequest changes).2.1 = true ↔ changes ≠ [])) ∧
    ((createConfirmationRequest []).2.1 = false ∧
     containsSub (createConfirmationRequest []).1 (("No changes detected.").data) = true) ∧
    (∀ changes, (createConfirmationRequest changes).1 =
       generateConfirmationSummary changes ++
       ("\n\n---\n\n**Confirmation Required**\n\n").data ++
       confirmationNotice (createConfirmationRequest changes).2.2 ++
       ("\n\nTo apply these changes, re-run the validation with `apply_changes: true` and confirm you have reviewed the changes above.").data) ∧
    (∀ changes, (createConfirmationRequest changes).2.2 > 0 →
       containsSub (createConfirmationRequest changes).1
         (("WARNING: This includes ").data) = true) ∧
    (∀ n : Nat, ¬ n > 0 →
       confirmationNotice n = ("These changes appear to be relatively safe.").data) := by
  refine ⟨?_, ⟨rfl, by decide⟩, fun changes => rfl, ?_, ?_⟩
  · intro changes
    constructor
    · intro h hnil
      rw [hnil] at h
      exact absurd h (by decide)
    · intro h
      have : 0 < changes.length := List.length_pos.mpr h
      simp [createConfirmationRequest, this]
  · intro changes hcnt
    have hnotice : confirmationNotice (createConfirmationRequest changes).2.2 =
        ("WARNING: This includes ").data ++
        natRepr (createConfirmationRequest changes).2.2 ++
        (" high-impact change(s) that may significantly affect the project.").data := by
      unfold confirmationNotice
      rw [if_pos hcnt]
    have hmsg : (createConfirmationRequest changes).1 =
        generateConfirmationSummary changes ++
        ("\n\n---\n\n**Confirmation Required**\n\n").data ++
        confirmationNotice (createConfirmationRequest changes).2.2 ++
        ("\n\nTo apply these changes, re-run the validation with `apply_changes: true` and confirm you have reviewed the changes above.").data := rfl
    rw [hmsg, hnotice]
    rw [List.append_assoc, List.append_assoc, List.append_assoc, List.append_assoc]
    apply containsSub_append_left
    apply containsSub_append_left
    exact containsSub_self_append _ _
  · intro n hn
    unfold confirmationNotice
    rw [if_neg hn]

theorem confirmation_gating_witness :
    containsSub (createConfirmationRequest [sampleHighChange]).1
      (("WARNING: This includes ").data) = true :=
  confirmation_gating.2.2.2.1 [sampleHighChange] (by decide)
